import Mathlib

/-!
Shallow embedding of the WireGuard generic-netlink configuration engine
(`src/netlink.c`): device lookup, the resumable multi-message dump
(`get_device_dump` / `get_peer`), and the transactional mutation path
(`set_device` / `set_peer` / `set_socket` / `set_allowedip`).

External collaborators that live outside `src/` (key derivation, peer
creation/removal, the allowed-ips trie walk, socket rebinding) are modelled
as explicit state operations or as parameters of an `Env` record; each such
definition carries a doc comment saying what it stands for.

Machine integers are modelled as `Nat`; netlink attribute payloads carrying
key material are byte lists, so that the C code's length checks are visible.
Netlink error codes are an inductive `Errno`; buffer exhaustion (`-EMSGSIZE`)
on the dump path is modelled by a unit-cost message budget: every attribute
emission costs one unit, and an emission attempt fails exactly when the
budget is spent, mirroring the per-`nla_put` failure checks of the C code.
-/

namespace WgNetlink

/-- `NOISE_PUBLIC_KEY_LEN` -/
def NOISE_PUBLIC_KEY_LEN : Nat := 32

/-- `NOISE_SYMMETRIC_KEY_LEN` -/
def NOISE_SYMMETRIC_KEY_LEN : Nat := 32

/-- `AF_INET` -/
def AF_INET : Nat := 2

/-- `AF_INET6` -/
def AF_INET6 : Nat := 10

/-- `sizeof(struct sockaddr_in)` -/
def SIZEOF_SOCKADDR_IN : Nat := 16

/-- `sizeof(struct sockaddr_in6)` -/
def SIZEOF_SOCKADDR_IN6 : Nat := 28

/-- `sizeof(struct in_addr)` -/
def SIZEOF_IN_ADDR : Nat := 4

/-- `sizeof(struct in6_addr)` -/
def SIZEOF_IN6_ADDR : Nat := 16

/-- `WGPEER_F_REMOVE_ME` is bit 0, `WGPEER_F_REPLACE_ALLOWEDIPS` is bit 1,
`WGDEVICE_F_REPLACE_PEERS` is bit 0 of the device flags word. -/
def WGPEER_F_REMOVE_ME : Nat := 1

def WGPEER_F_REPLACE_ALLOWEDIPS : Nat := 2

def WGDEVICE_F_REPLACE_PEERS : Nat := 1

/-- The kernel error codes returned by `netlink.c`. -/
inductive Errno where
  | EBADR
  | ENODEV
  | EOPNOTSUPP
  | EINVAL
  | EPERM
  | ENOMEM
  | EMSGSIZE
  | EPFNOSUPPORT
  deriving DecidableEq, Repr

/-- The specification's error taxonomy (section 7). -/
inductive ErrClass where
  | invalidArgument
  | permissionDenied
  | notFound
  | resourceExhausted
  | msgTooLarge
  | protocolMismatch
  deriving DecidableEq, Repr

/-- Classification of the concrete kernel codes into the specification's
error taxonomy: `InvalidArgument` covers malformed/contradictory selectors
(`EBADR`), bad attribute contents (`EINVAL`) and foreign devices
(`EOPNOTSUPP`); `NotFound` covers `ENODEV`; `PermissionDenied` covers
`EPERM`; `ResourceExhausted` covers `ENOMEM`; `EMSGSIZE` is the
message-too-large signal and `EPFNOSUPPORT` the protocol mismatch. -/
def errClass : Errno → ErrClass
  | .EBADR => .invalidArgument
  | .EINVAL => .invalidArgument
  | .EOPNOTSUPP => .invalidArgument
  | .ENODEV => .notFound
  | .EPERM => .permissionDenied
  | .ENOMEM => .resourceExhausted
  | .EMSGSIZE => .msgTooLarge
  | .EPFNOSUPPORT => .protocolMismatch

/-- A peer's current network endpoint (`struct endpoint`): address family
plus an opaque rendering of the address bytes. -/
structure EndpointVal where
  family : Nat
  payload : Nat
  deriving DecidableEq, Repr

/-- One entry of the external allowed-ips structure, keyed by the owning
peer's public key (`src` stores these in an external trie; insertion and
removal are keyed by peer, per the spec's data model). -/
structure AllowedIP where
  family : Nat
  ip : List Nat
  cidr : Nat
  owner : List Nat
  deriving DecidableEq, Repr

/-- Observable side effects handed to external collaborators. -/
inductive Event where
  | sendKeepalive (pk : List Nat)
  | flushStaged (pk : List Nat)
  | socketRebind (net port : Nat)
  deriving DecidableEq, Repr

/-- `struct wireguard_peer`, restricted to the fields `netlink.c` reads or
writes: public key (immutable identity), preshared key, endpoint, keepalive
interval, and the cached endpoint source binding cleared by
`wg_socket_clear_peer_endpoint_src`. -/
structure Peer where
  public_key : List Nat
  preshared_key : List Nat
  endpoint : Option EndpointVal
  persistent_keepalive_interval : Nat
  endpoint_src : Bool
  deriving DecidableEq, Repr

/-- `struct wireguard_device` together with the fields of its underlying
`struct net_device` that `netlink.c` uses (`ifindex`, `name`, the owning
netns, the link-ops kind and the administrative running state). -/
structure Device where
  ifindex : Nat
  name : Nat
  dev_net : Nat
  kind_wg : Bool
  netif_running : Bool
  incoming_port : Nat
  fwmark : Nat
  transit_net : Nat
  has_identity : Bool
  static_private : List Nat
  static_public : List Nat
  device_update_gen : Nat
  peers : List Peer
  allowedips : List AllowedIP
  events : List Event
  deriving DecidableEq, Repr

/-- The visible network devices (`dev_get_by_index` / `dev_get_by_name`
search this per-namespace table). -/
structure World where
  devices : List Device
  deriving DecidableEq, Repr

/-- External collaborators of `netlink.c` that are parameters of the model:
namespace resolution, capability checks, curve25519 public-key derivation,
the static-static precomputation, socket (re)binding and allocation. -/
structure Env where
  net_by_pid : Nat → Except Errno Nat
  net_by_fd : Nat → Except Errno Nat
  current_net : Nat
  ns_capable : Nat → Bool
  netlink_capable : Nat → Bool
  genpub : List Nat → Option (List Nat)
  precompute_ok : List Nat → List Nat → Bool
  socket_init : Nat → Nat → Option Errno
  peer_alloc_ok : Bool

/-- Decoded top-level attribute set of a request (`device_policy`):
`none` means the attribute is absent. -/
structure EndpointAttr where
  len : Nat
  family : Nat
  payload : Nat
  deriving DecidableEq, Repr

/-- Decoded `allowedip_policy` attribute set of one nested allowed-ip. -/
structure AllowedIPAttrs where
  family : Option Nat
  ipaddr : Option (List Nat)
  cidr : Option Nat
  deriving DecidableEq, Repr

/-- Decoded `peer_policy` attribute set of one nested peer block. The
nested allowed-ip list keeps each entry as the outcome of its
`nla_parse_nested` call, so a per-entry parse failure is representable. -/
structure PeerAttrs where
  public_key : Option (List Nat)
  preshared_key : Option (List Nat)
  flags : Option Nat
  endpoint : Option EndpointAttr
  persistent_keepalive_interval : Option Nat
  protocol_version : Option Nat
  allowedips : Option (List (Except Errno AllowedIPAttrs))
  deriving Repr

/-- Decoded `device_policy` attribute set of a request. The peer list keeps
each block as the outcome of its `nla_parse_nested` call. -/
structure DeviceAttrs where
  ifindex : Option Nat
  ifname : Option Nat
  private_key : Option (List Nat)
  flags : Option Nat
  listen_port : Option Nat
  fwmark : Option Nat
  peers : Option (List (Except Errno PeerAttrs))
  dev_netns_pid : Option Nat
  dev_netns_fd : Option Nat
  transit_netns_pid : Option Nat
  transit_netns_fd : Option Nat
  deriving Repr

/-- `get_attr_net`: both namespace-override attributes present is `EINVAL`;
one present resolves it (by pid or by fd); neither present yields no
override (the C function returns `NULL`). -/
def getAttrNet (env : Env) (net_pid net_fd : Option Nat) :
    Except Errno (Option Nat) :=
  match net_pid, net_fd with
  | some _, some _ => .error .EINVAL
  | some p, none => (env.net_by_pid p).map some
  | none, some f => (env.net_by_fd f).map some
  | none, none => .ok none

/-- `test_socket_net_capable`: succeeds when the namespace is the caller's
own, or the caller holds `CAP_NET_ADMIN` in it. -/
def socketNetCapable (env : Env) (net : Nat) : Bool :=
  net == env.current_net || env.ns_capable net

/-- `lookup_interface`: rejects a selector with both or neither of
if-index and if-name (`EBADR`); otherwise searches the namespace's device
table, failing with `ENODEV` when nothing matches and `EOPNOTSUPP` when the
matched device is not a WireGuard device. On success returns the index of
the device in the table (the shallow analogue of the returned pointer). -/
def lookupInterface (w : World) (attrs : DeviceAttrs) (net : Nat) :
    Except Errno Nat :=
  if attrs.ifindex.isSome == attrs.ifname.isSome then .error .EBADR
  else
    let found : Option Nat :=
      match attrs.ifindex with
      | some idx => w.devices.findIdx? (fun d => d.dev_net == net && d.ifindex == idx)
      | none =>
        match attrs.ifname with
        | some nm => w.devices.findIdx? (fun d => d.dev_net == net && d.name == nm)
        | none => none
    match found with
    | none => .error .ENODEV
    | some i =>
      match w.devices[i]? with
      | none => .error .ENODEV
      | some d => if d.kind_wg then .ok i else .error .EOPNOTSUPP

/-- Modelled from the spec: peer lookup in the public-key-indexed table
(`wg_pubkey_hashtable_lookup`, not under `src/`) — a peer's public key is
its unique identity within the device. -/
def lookupPeer (wg : Device) (pk : List Nat) : Option Peer :=
  wg.peers.find? (fun p => p.public_key == pk)

/-- Modelled from the spec: `wg_socket_clear_peer_endpoint_src` (not under
`src/`) drops one peer's cached outgoing-endpoint source binding. Applied
to every peer, as the fwmark and socket-change steps do. -/
def clearAllEndpointSrc (wg : Device) : Device :=
  { wg with peers := wg.peers.map (fun p => { p with endpoint_src := false }) }

/-- Modelled from the spec: `wg_peer_remove` (not under `src/`) unlinks the
peer from the device's list/table and removes its keyed allowed-prefix
entries. -/
def removePeerByKey (wg : Device) (pk : List Nat) : Device :=
  { wg with
    peers := wg.peers.filter (fun p => ¬(p.public_key == pk)),
    allowedips := wg.allowedips.filter (fun a => ¬(a.owner == pk)) }

/-- Modelled from the spec: `wg_peer_remove_all` (not under `src/`) removes
every current peer. -/
def removeAllPeers (wg : Device) : Device :=
  (wg.peers.map (fun p => p.public_key)).foldl removePeerByKey wg

/-- Modelled from the spec: `wg_peer_create` (not under `src/`) creates a
fresh peer holding the given public key and optional preshared key, linked
at the tail of the device's peer list. -/
def addPeer (wg : Device) (pk : List Nat) (psk : Option (List Nat)) : Device :=
  { wg with
    peers := wg.peers ++
      [{ public_key := pk,
         preshared_key := psk.getD (List.replicate NOISE_SYMMETRIC_KEY_LEN 0),
         endpoint := none,
         persistent_keepalive_interval := 0,
         endpoint_src := false }] }

/-- Point update of the peer identified by `pk`. -/
def updatePeer (wg : Device) (pk : List Nat) (f : Peer → Peer) : Device :=
  { wg with peers := wg.peers.map (fun p => if p.public_key == pk then f p else p) }

/-- The keepalive interval currently stored for the peer identified by
`pk` (reads `peer->persistent_keepalive_interval`). -/
def peerKeepalive (wg : Device) (pk : List Nat) : Nat :=
  match lookupPeer wg pk with
  | some p => p.persistent_keepalive_interval
  | none => 0

/-- `set_socket`: resolves the transit-namespace override, computes the
effective port (the attribute if present, the current port otherwise),
checks capability in the effective namespace, and returns unchanged when
the effective (port, namespace) pair equals the current one. Otherwise it
clears every peer's cached endpoint source, then either stores the new
configuration directly (link administratively down) or live-rebinds the
transport socket (`wg_socket_init`, modelled from the spec as a rebind that
installs the new pair and can fail through the environment). -/
def setSocket (env : Env) (wg : Device) (attrs : DeviceAttrs) :
    Device × Option Errno :=
  match getAttrNet env attrs.transit_netns_pid attrs.transit_netns_fd with
  | .error e => (wg, some e)
  | .ok onet =>
    let port := attrs.listen_port.getD wg.incoming_port
    if ¬ socketNetCapable env (onet.getD wg.transit_net) then (wg, some .EPERM)
    else if wg.incoming_port == port && (onet.isNone || onet == some wg.transit_net) then
      (wg, none)
    else
      let wg := clearAllEndpointSrc wg
      if ¬ wg.netif_running then
        let wg := { wg with incoming_port := port }
        let wg := match onet with
          | some n => { wg with transit_net := n }
          | none => wg
        (wg, none)
      else
        match env.socket_init (onet.getD wg.transit_net) port with
        | some e => (wg, some e)
        | none =>
          ({ wg with
              incoming_port := port,
              transit_net := onet.getD wg.transit_net,
              events := wg.events ++ [.socketRebind (onet.getD wg.transit_net) port] },
           none)

/-- `set_allowedip`: requires family, address and cidr to be present;
accepts (`AF_INET`, cidr ≤ 32, 4-byte address) or (`AF_INET6`, cidr ≤ 128,
16-byte address) and inserts the prefix keyed by the peer; anything else is
`EINVAL`. -/
def setAllowedip (wg : Device) (pk : List Nat) (a : AllowedIPAttrs) :
    Except Errno Device :=
  match a.family, a.ipaddr, a.cidr with
  | some fam, some ip, some cidr =>
    if fam == AF_INET && decide (cidr ≤ 32) && (ip.length == SIZEOF_IN_ADDR) then
      .ok { wg with allowedips := wg.allowedips ++ [⟨fam, ip, cidr, pk⟩] }
    else if fam == AF_INET6 && decide (cidr ≤ 128) && (ip.length == SIZEOF_IN6_ADDR) then
      .ok { wg with allowedips := wg.allowedips ++ [⟨fam, ip, cidr, pk⟩] }
    else .error .EINVAL
  | _, _, _ => .error .EINVAL

/-- The `nla_for_each_nested` loop over a peer block's allowed-ip entries:
each entry is parsed and inserted in order; the first failure (parse or
insert) aborts the loop, keeping earlier insertions. -/
def insertAllowedIPs (wg : Device) (pk : List Nat) :
    List (Except Errno AllowedIPAttrs) → Device × Option Errno
  | [] => (wg, none)
  | (.error e) :: _ => (wg, some e)
  | (.ok a) :: rest =>
    match setAllowedip wg pk a with
    | .error e => (wg, some e)
    | .ok wg' => insertAllowedIPs wg' pk rest

/-- The validated preshared key of a peer block: present only when the
attribute is present with exactly `NOISE_SYMMETRIC_KEY_LEN` bytes. -/
def pskOf (attrs : PeerAttrs) : Option (List Nat) :=
  match attrs.preshared_key with
  | some k => if k.length == NOISE_SYMMETRIC_KEY_LEN then some k else none
  | none => none

/-- The tail of `set_peer` shared by the found-peer and created-peer paths:
honor `WGPEER_F_REMOVE_ME`; copy the preshared key; update the endpoint
only for a well-formed (length, family) combination; honor
`WGPEER_F_REPLACE_ALLOWEDIPS`; insert the supplied prefixes (aborting the
block on the first bad one); update the keepalive interval, triggering an
immediate keepalive on a zero-to-nonzero transition while the link is up;
and flush staged packets when the link is up. -/
def applyPeerConfig (wg : Device) (pk : List Nat) (psk : Option (List Nat))
    (flags : Nat) (attrs : PeerAttrs) : Device × Option Errno :=
  if flags.testBit 0 then (removePeerByKey wg pk, none)
  else
    let wg := match psk with
      | some k => updatePeer wg pk (fun p => { p with preshared_key := k })
      | none => wg
    let wg := match attrs.endpoint with
      | some ea =>
        if (ea.len == SIZEOF_SOCKADDR_IN && ea.family == AF_INET) ||
           (ea.len == SIZEOF_SOCKADDR_IN6 && ea.family == AF_INET6) then
          updatePeer wg pk (fun p =>
            { p with endpoint := some ⟨ea.family, ea.payload⟩, endpoint_src := false })
        else wg
      | none => wg
    let wg := if flags.testBit 1 then
        { wg with allowedips := wg.allowedips.filter (fun a => ¬(a.owner == pk)) }
      else wg
    match (match attrs.allowedips with
           | some l => insertAllowedIPs wg pk l
           | none => (wg, none)) with
    | (wg, some e) => (wg, some e)
    | (wg, none) =>
      let wg := match attrs.persistent_keepalive_interval with
        | some v =>
          let send := peerKeepalive wg pk == 0 && v != 0 && wg.netif_running
          let wg := updatePeer wg pk
            (fun p => { p with persistent_keepalive_interval := v })
          if send then { wg with events := wg.events ++ [Event.sendKeepalive pk] } else wg
        | none => wg
      let wg := if wg.netif_running then
          { wg with events := wg.events ++ [Event.flushStaged pk] }
        else wg
      (wg, none)

/-- `set_peer`: validates the public key (`EINVAL` when absent or of wrong
length) and the protocol version (`EPFNOSUPPORT` unless absent or 1), looks
the peer up by public key; on a miss, removal is `ENODEV`, a key equal to
the device's own configured identity is silently accepted with no effect,
and otherwise a fresh peer is created (`ENOMEM` when allocation fails) and
the remainder of the block applied to it. -/
def setPeer (env : Env) (wg : Device) (attrs : PeerAttrs) :
    Device × Option Errno :=
  match attrs.public_key with
  | none => (wg, some Errno.EINVAL)
  | some pk =>
    if ¬(pk.length == NOISE_PUBLIC_KEY_LEN) then (wg, some Errno.EINVAL)
    else
      let psk := pskOf attrs
      let flags := (attrs.flags).getD 0
      if (match attrs.protocol_version with
          | some v => v != 1
          | none => false) then (wg, some Errno.EPFNOSUPPORT)
      else
        match lookupPeer wg pk with
        | none =>
          if flags.testBit 0 then (wg, some Errno.ENODEV)
          else if wg.has_identity && pk == wg.static_public then (wg, none)
          else if ¬ env.peer_alloc_ok then (wg, some Errno.ENOMEM)
          else applyPeerConfig (addPeer wg pk psk) pk psk flags attrs
        | some _ => applyPeerConfig wg pk psk flags attrs

/-- The `nla_for_each_nested` loop of `set_device` over peer blocks: each
block is parsed and applied via `set_peer` in request order; the first
failure aborts the remainder without rolling anything back. The boolean
list records, per block, whether that block's preshared-key attribute
buffer was overwritten with zeros (`set_peer` does so on its exit path, so
the flag is the presence of the attribute for attempted blocks and `false`
for every block after the abort). -/
def applyPeerBlocks (env : Env) (wg : Device) :
    List (Except Errno PeerAttrs) → Device × Option Errno × List Bool
  | [] => (wg, none, [])
  | (.error e) :: rest => (wg, some e, false :: rest.map (fun _ => false))
  | (.ok a) :: rest =>
    let z := a.preshared_key.isSome
    match setPeer env wg a with
    | (wg', some e) => (wg', some e, z :: rest.map (fun _ => false))
    | (wg', none) =>
      let r := applyPeerBlocks env wg' rest
      (r.1, r.2.1, z :: r.2.2)

/-- The private-key step of `set_device` (lines 601–630): when a
well-formed private key is supplied, first derive its public key and remove
any colliding peer, then install the new identity
(`wg_noise_set_static_identity_private_key`, modelled from the spec: copies
the private key and records the derived public key, the identity presence
flag following derivation success), then drop every remaining peer whose
static-static precomputation fails against the new key. -/
def applyPrivateKey (env : Env) (wg : Device) (attrs : DeviceAttrs) : Device :=
  match attrs.private_key with
  | some priv =>
    if priv.length == NOISE_PUBLIC_KEY_LEN then
      let wg := match env.genpub priv with
        | some pub =>
          match lookupPeer wg pub with
          | some _ => removePeerByKey wg pub
          | none => wg
        | none => wg
      let wg := match env.genpub priv with
        | some pub =>
          { wg with has_identity := true, static_private := priv, static_public := pub }
        | none => { wg with has_identity := false, static_private := priv }
      ((wg.peers.filter (fun p => ¬ env.precompute_ok priv p.public_key)).map
        (fun p => p.public_key)).foldl removePeerByKey wg
    else wg
  | none => wg

/-- `++wg->device_update_gen`: the generation bump at the top of the
locked section of `set_device`. -/
def bumpGen (wg : Device) : Device :=
  { wg with device_update_gen := wg.device_update_gen + 1 }

/-- The firewall-mark step of `set_device` (lines 584-590): store the new
mark and clear every peer's cached endpoint source binding. -/
def fwmarkStep (wg : Device) (attrs : DeviceAttrs) : Device :=
  match attrs.fwmark with
  | some m => clearAllEndpointSrc { wg with fwmark := m }
  | none => wg

/-- The `WGDEVICE_F_REPLACE_PEERS` step of `set_device`: remove every
current peer before the new peer blocks are processed. -/
def replaceStep (wg : Device) (attrs : DeviceAttrs) : Device :=
  if ((attrs.flags).getD 0).testBit 0 then removeAllPeers wg else wg

/-- The device-level phase of `set_device` executed before the peer-block
loop, in request order: bump the update generation, apply a firewall-mark
change, apply the socket step (whose failure aborts here, keeping the
earlier effects), honor `WGDEVICE_F_REPLACE_PEERS`, and apply the
private-key step. -/
def preBlocksState (env : Env) (wg : Device) (attrs : DeviceAttrs) :
    Device × Option Errno :=
  match setSocket env (fwmarkStep (bumpGen wg) attrs) attrs with
  | (wg, some e) => (wg, some e)
  | (wg, none) => (applyPrivateKey env (replaceStep wg attrs) attrs, none)

/-- The whole mutation applied to one device under its update lock: the
device-level phase followed by the peer-block loop. The boolean list is the
per-block preshared-key zeroing record (empty-per-block `false` when the
phase aborts before the loop). -/
def deviceMutation (env : Env) (wg : Device) (attrs : DeviceAttrs) :
    Device × Option Errno × List Bool :=
  match preBlocksState env wg attrs with
  | (wg, some e) => (wg, some e, (attrs.peers.getD []).map (fun _ => false))
  | (wg, none) =>
    match attrs.peers with
    | none => (wg, none, [])
    | some blocks => applyPeerBlocks env wg blocks

/-- The result of a `set_device` request: the device table afterwards, the
returned error, whether the private-key attribute buffer was overwritten
with zeros before returning (`memzero_explicit` at `out_nonet`, reached on
every exit path), and the per-peer-block preshared-key zeroing record. -/
structure SetDeviceResult where
  world : World
  err : Option Errno
  priv_zeroed : Bool
  psk_zeroed : List Bool
  deriving Repr

/-- `set_device`: resolve the device-namespace override, check
`CAP_NET_ADMIN` in the resolved namespace, look the device up, and run the
mutation under its update lock; the private-key attribute buffer is zeroed
on every exit path, while peer-block preshared-key buffers are zeroed only
by the `set_peer` calls that were actually reached. -/
def setDevice (env : Env) (w : World) (skb_net : Nat) (attrs : DeviceAttrs) :
    SetDeviceResult :=
  let privz := attrs.private_key.isSome
  let noz : List Bool := (attrs.peers.getD []).map (fun _ => false)
  match getAttrNet env attrs.dev_netns_pid attrs.dev_netns_fd with
  | .error e => ⟨w, some e, privz, noz⟩
  | .ok onet =>
    let dev_net := onet.getD skb_net
    if ¬ env.netlink_capable dev_net then ⟨w, some .EPERM, privz, noz⟩
    else
      match lookupInterface w attrs dev_net with
      | .error e => ⟨w, some e, privz, noz⟩
      | .ok i =>
        match w.devices[i]? with
        | none => ⟨w, some .ENODEV, privz, noz⟩
        | some wg =>
          let r := deviceMutation env wg attrs
          ⟨⟨w.devices.set i r.1⟩, r.2.1, privz, r.2.2⟩

/-- `struct allowedips_cursor` as `netlink.c` uses it: a sequence stamp
that is nonzero exactly while a peer's prefix walk is suspended
mid-stream, and the resume position. `get_device_start` allocates it
zeroed and `get_peer` zeroes it (`memset`) after a completed walk. -/
structure RtCursor where
  seq : Nat
  pos : Nat
  deriving DecidableEq, Repr

/-- One serialized allowed-prefix record of the dump. -/
structure PrefixRec where
  family : Nat
  ip : List Nat
  cidr : Nat
  deriving DecidableEq, Repr

/-- The fields `get_peer` emits only when the prefix sub-cursor is unset:
preshared key, last-handshake time, keepalive interval, byte counters,
protocol version, and the endpoint when one with a known family is set.
Handshake time and counters are opaque reads of live peer state and are
rendered as the emission alone. -/
structure Page0Fields where
  preshared_key : List Nat
  keepalive : Nat
  protocol_version : Nat
  endpoint : Option EndpointVal
  deriving DecidableEq, Repr

/-- One serialized peer record of the dump: the public key, the
conditional field group, and the prefix records emitted in this message. -/
structure PeerRec where
  public_key : List Nat
  page0 : Option Page0Fields
  prefixes : List PrefixRec
  deriving DecidableEq, Repr

/-- The device-level fields of the first-page emission. -/
structure DevFields where
  listen_port : Option Nat
  fwmark : Nat
  ifindex : Nat
  name : Nat
  keys : Option (List Nat × List Nat)
  deriving DecidableEq, Repr

/-- One output message of a dump: the generation stamp, the device-level
fields when emitted, and the peer container (`none` when the container was
cancelled because there was nothing to resume). -/
structure Msg where
  gen : Nat
  dev : Option DevFields
  peers : Option (List PeerRec)
  deriving DecidableEq, Repr

/-- The allowed-prefix entries owned by the peer, in table order
(`wg_allowedips_walk_by_peer` visits exactly this peer's entries). -/
def prefixesOf (wg : Device) (pk : List Nat) : List PrefixRec :=
  (wg.allowedips.filter (fun a => a.owner == pk)).map (fun a => ⟨a.family, a.ip, a.cidr⟩)

/-- Modelled from the spec: `wg_allowedips_walk_by_peer` (not under
`src/`) — the resumable walk over one peer's prefixes. A fresh walk starts
at the beginning and stamps the sub-cursor nonzero; a resumed walk starts
at the recorded position. Each emitted prefix costs one budget unit; when
the budget runs out before the list is exhausted, the walk stops with the
sub-cursor intact (nonzero stamp, next position) and reports
incompleteness, so the dump resumes at the same peer next message. -/
def walkByPeer (rt : RtCursor) (prefs : List PrefixRec) (b : Nat) :
    List PrefixRec × Nat × RtCursor × Bool :=
  let start := if rt.seq == 0 then 0 else rt.pos
  let rest := prefs.drop start
  if rest.length ≤ b then
    (rest, b - rest.length, ⟨1, start + rest.length⟩, true)
  else
    (rest.take b, 0, ⟨1, start + b⟩, false)

/-- The outcome of one `get_peer` call: the peer record kept in the message
(`none` when the nest was cancelled), the remaining budget, the prefix
sub-cursor afterwards, and whether the call returned success (`0` rather
than `-EMSGSIZE`). -/
structure GetPeerRes where
  kept : Option PeerRec
  budget : Nat
  rt : RtCursor
  ok : Bool
  deriving DecidableEq, Repr

/-- The page-0 group of `get_peer`, emitted only when the prefix sub-cursor
stamp is zero, as one budget charge equal to the number of `nla_put`s the C
code performs (preshared key, handshake time, keepalive, tx, rx, protocol
version, plus the endpoint when its family is known); any single failed put
cancels the whole peer nest, which the single charge reproduces. -/
def page0Cost (p : Peer) : Nat :=
  6 + (match p.endpoint with
       | some e => if e.family == AF_INET || e.family == AF_INET6 then 1 else 0
       | none => 0)

def page0Of (p : Peer) : Page0Fields :=
  { preshared_key := p.preshared_key,
    keepalive := p.persistent_keepalive_interval,
    protocol_version := 1,
    endpoint := match p.endpoint with
      | some e => if e.family == AF_INET || e.family == AF_INET6 then some e else none
      | none => none }

/-- `get_peer`: start the peer nest and emit the public key (each one
budget unit; failure cancels the nest, restoring the budget); emit the
page-0 group when the sub-cursor stamp is zero; start the allowed-ips nest;
walk the peer's prefixes. An interrupted walk keeps the partial record in
the message (both nests are ended, not cancelled), leaves the sub-cursor
intact and reports `-EMSGSIZE`; a completed walk zeroes the sub-cursor
(`memset`) and reports success. -/
def getPeer (p : Peer) (prefs : List PrefixRec) (rt : RtCursor) (b : Nat) :
    GetPeerRes :=
  if b < 2 then ⟨none, b, rt, false⟩
  else
    let b1 := b - 2
    let cost := if rt.seq == 0 then page0Cost p else 0
    if b1 < cost + 1 then ⟨none, b, rt, false⟩
    else
      let b2 := b1 - cost - 1
      let fields := if rt.seq == 0 then some (page0Of p) else none
      let w := walkByPeer rt prefs b2
      if w.2.2.2 then
        ⟨some ⟨p.public_key, fields, w.1⟩, w.2.1, ⟨0, 0⟩, true⟩
      else
        ⟨some ⟨p.public_key, fields, w.1⟩, w.2.1, w.2.2.1, false⟩

/-- The first-page device-level emission of `get_device_dump` (lines
268–292): listening port only when the caller is capable in the transit
namespace, then fwmark, ifindex and name, then the key pair only when the
device has a configured identity. Each put is one budget unit and any
failure cancels the whole message, which the single charge reproduces. -/
def devFieldsCost (env : Env) (wg : Device) : Nat :=
  (if socketNetCapable env wg.transit_net then 1 else 0) + 3 +
    (if wg.has_identity then 2 else 0)

def devFieldsOf (env : Env) (wg : Device) : DevFields :=
  { listen_port := if socketNetCapable env wg.transit_net then some wg.incoming_port else none,
    fwmark := wg.fwmark,
    ifindex := wg.ifindex,
    name := wg.name,
    keys := if wg.has_identity then some (wg.static_private, wg.static_public) else none }

/-- The `list_for_each_entry_continue` loop of `get_device_dump`: serialize
peers in list order from the resume point; a successful `get_peer` advances
the next-cursor to that peer, a failed one stops the loop with the done
flag cleared. Returns the records emitted, the sub-cursor, the remaining
budget, the next-cursor and the done flag. -/
def dumpPeers (wg : Device) (cur0 : Option (List Nat)) (rt : RtCursor) (b : Nat) :
    List Peer → List PeerRec × RtCursor × Nat × Option (List Nat) × Bool
  | [] => ([], rt, b, cur0, true)
  | p :: rest =>
    let r := getPeer p (prefixesOf wg p.public_key) rt b
    match r.kept, r.ok with
    | some rec, true =>
      let t := dumpPeers wg (some p.public_key) r.rt r.budget rest
      (rec :: t.1, t.2.1, t.2.2.1, t.2.2.2.1, t.2.2.2.2)
    | some rec, false => ([rec], r.rt, r.budget, cur0, false)
    | none, _ => ([], rt, b, cur0, false)

/-- The dump position carried in `cb->args` between messages: the last
fully serialized peer (by its public-key identity; `0` when none yet) and
the prefix sub-cursor. -/
structure DumpCtx where
  cursor : Option (List Nat)
  rt : RtCursor
  deriving DecidableEq, Repr

inductive StepRet where
  | fail (e : Errno)
  | done
  | more
  deriving DecidableEq, Repr

/-- The outcome of one `get_device_dump` invocation: the message (`none`
when the message was cancelled whole), the position afterwards, and the
return disposition (error, dump complete, or more to come). -/
structure StepRes where
  msg : Option Msg
  ctx : DumpCtx
  ret : StepRet
  deriving DecidableEq, Repr

/-- One invocation of `get_device_dump` under the device update lock: stamp
the generation, put the message header, emit the device-level fields when
no peer cursor is recorded yet, open the peer container; treat an empty
peer list — or a recorded cursor peer that is no longer on the list — as
"no more peers", cancelling the container and completing the dump; else
resume the peer loop after the cursor peer. On completion the recorded
cursor is cleared; otherwise it advances to the last fully serialized peer
(possibly still none when not even one peer fit). -/
def dumpStep (env : Env) (wg : Device) (ctx : DumpCtx) (b : Nat) : StepRes :=
  if b < 1 then ⟨none, ctx, .fail .EMSGSIZE⟩
  else
    let b1 := b - 1
    let dcost := if ctx.cursor.isNone then devFieldsCost env wg else 0
    if b1 < dcost then ⟨none, ctx, .fail .EMSGSIZE⟩
    else
      let b2 := b1 - dcost
      let df := if ctx.cursor.isNone then some (devFieldsOf env wg) else none
      if b2 < 1 then ⟨none, ctx, .fail .EMSGSIZE⟩
      else
        let b3 := b2 - 1
        if wg.peers.isEmpty ||
           (match ctx.cursor with
            | some pk => ¬ wg.peers.any (fun p => p.public_key == pk)
            | none => false) then
          ⟨some ⟨wg.device_update_gen, df, none⟩, ⟨none, ctx.rt⟩, .done⟩
        else
          let startList := match ctx.cursor with
            | none => wg.peers
            | some pk => (wg.peers.dropWhile (fun p => p.public_key != pk)).drop 1
          let t := dumpPeers wg ctx.cursor ctx.rt b3 startList
          if t.2.2.2.2 then
            ⟨some ⟨wg.device_update_gen, df, some t.1⟩, ⟨none, t.2.1⟩, .done⟩
          else
            ⟨some ⟨wg.device_update_gen, df, some t.1⟩, ⟨t.2.2.2.1, t.2.1⟩, .more⟩

/-! ### Concrete instances used to evaluate the model -/

/-- A concrete environment: the caller's namespace is 0 and it holds no
foreign-namespace capability; public-key derivation adds one to every byte;
precomputation always succeeds; allocation and socket binding succeed. -/
def env0 : Env :=
  { net_by_pid := fun _ => .error .EINVAL,
    net_by_fd := fun _ => .error .EINVAL,
    current_net := 0,
    ns_capable := fun _ => false,
    netlink_capable := fun _ => true,
    genpub := fun k => some (k.map (fun b => b + 1)),
    precompute_ok := fun _ _ => true,
    socket_init := fun _ _ => none,
    peer_alloc_ok := true }

def pkA : List Nat := List.replicate 32 1

def pkB : List Nat := List.replicate 32 2

def peerA : Peer :=
  { public_key := pkA, preshared_key := List.replicate 32 9,
    endpoint := none, persistent_keepalive_interval := 0, endpoint_src := false }

def peerB : Peer :=
  { public_key := pkB, preshared_key := List.replicate 32 8,
    endpoint := none, persistent_keepalive_interval := 0, endpoint_src := false }

/-- A concrete device with two peers, no identity, link down. -/
def dev0 : Device :=
  { ifindex := 7, name := 100, dev_net := 0, kind_wg := true, netif_running := false,
    incoming_port := 51820, fwmark := 5, transit_net := 0, has_identity := false,
    static_private := [], static_public := [], device_update_gen := 3,
    peers := [peerA, peerB], allowedips := [], events := [] }

/-- A request with every attribute absent. -/
def attrsEmpty : DeviceAttrs :=
  { ifindex := none, ifname := none, private_key := none, flags := none,
    listen_port := none, fwmark := none, peers := none, dev_netns_pid := none,
    dev_netns_fd := none, transit_netns_pid := none, transit_netns_fd := none }

/-- A peer block with every attribute absent. -/
def peerAttrsEmpty : PeerAttrs :=
  { public_key := none, preshared_key := none, flags := none, endpoint := none,
    persistent_keepalive_interval := none, protocol_version := none,
    allowedips := none }

def rt0 : RtCursor := ⟨0, 0⟩

/-- The device-level field projection of a dump message. -/
def msgDev : Option Msg → Option DevFields
  | some m => m.dev
  | none => none

/-- The peer-container projection of a dump message. -/
def msgPeers : Option Msg → Option (List PeerRec)
  | some m => m.peers
  | none => none

/-- Whether a peer block carries a preshared-key attribute (the buffer that
`set_peer`'s exit path overwrites). -/
def blockPskPresent : Except Errno PeerAttrs → Bool
  | .ok a => a.preshared_key.isSome
  | .error _ => false

/-! ### Helper lemmas -/

theorem removePeerByKey_identity (wg : Device) (pk : List Nat) :
    (removePeerByKey wg pk).has_identity = wg.has_identity ∧
    (removePeerByKey wg pk).static_public = wg.static_public ∧
    (removePeerByKey wg pk).static_private = wg.static_private :=
  ⟨rfl, rfl, rfl⟩

theorem foldlRemove_identity (l : List (List Nat)) (wg : Device) :
    ((l.foldl removePeerByKey wg).has_identity = wg.has_identity ∧
     (l.foldl removePeerByKey wg).static_public = wg.static_public ∧
     (l.foldl removePeerByKey wg).static_private = wg.static_private) := by
  induction l generalizing wg with
  | nil => exact ⟨rfl, rfl, rfl⟩
  | cons a t ih => simpa [List.foldl_cons, removePeerByKey] using ih (removePeerByKey wg a)

theorem foldlRemove_peers_sub (l : List (List Nat)) (wg : Device) (p : Peer) :
    p ∈ (l.foldl removePeerByKey wg).peers → p ∈ wg.peers := by
  induction l generalizing wg with
  | nil => exact fun h => h
  | cons a t ih =>
    intro h
    have h2 := ih (removePeerByKey wg a) h
    simp only [removePeerByKey, List.mem_filter] at h2
    exact h2.1

theorem applyPeerBlocks_append (env : Env) (wg1 : Device)
    (pre post : List (Except Errno PeerAttrs)) (blk : PeerAttrs)
    (wg2 wg3 : Device) (zs : List Bool) (e : Errno)
    (hok : applyPeerBlocks env wg1 pre = (wg2, none, zs))
    (hfail : setPeer env wg2 blk = (wg3, some e)) :
    applyPeerBlocks env wg1 (pre ++ .ok blk :: post) =
      (wg3, some e, zs ++ blk.preshared_key.isSome :: post.map (fun _ => false)) := by
  induction pre generalizing wg1 zs with
  | nil =>
    simp only [applyPeerBlocks, Prod.mk.injEq, true_and] at hok
    obtain ⟨h1, h3⟩ := hok
    subst h1
    subst h3
    simp only [List.nil_append, applyPeerBlocks, hfail]
  | cons a t ih =>
    cases a with
    | error e' => simp [applyPeerBlocks] at hok
    | ok a =>
      rcases hsp : setPeer env wg1 a with ⟨wg', r⟩
      cases r with
      | some e' =>
        simp only [applyPeerBlocks] at hok
        rw [hsp] at hok
        simp at hok
      | none =>
        rcases hab : applyPeerBlocks env wg' t with ⟨w2x, rx, zsx⟩
        simp only [applyPeerBlocks] at hok
        rw [hsp] at hok
        simp only [hab, Prod.mk.injEq] at hok
        obtain ⟨h1, h2, h3⟩ := hok
        subst h1
        subst h2
        subst h3
        have H := ih wg' zsx hab
        simp only [List.cons_append, applyPeerBlocks]
        rw [hsp]
        simp only [List.append_eq, H, List.cons_append]

theorem applyPeerBlocks_flags_ok (env : Env) (wg : Device)
    (blocks : List (Except Errno PeerAttrs)) (wg' : Device) (zs : List Bool)
    (h : applyPeerBlocks env wg blocks = (wg', none, zs)) :
    zs = blocks.map blockPskPresent := by
  induction blocks generalizing wg zs with
  | nil =>
    simp only [applyPeerBlocks, Prod.mk.injEq, true_and] at h
    exact h.2.symm
  | cons a t ih =>
    cases a with
    | error e' => simp [applyPeerBlocks] at h
    | ok a =>
      rcases hsp : setPeer env wg a with ⟨wgx, r⟩
      cases r with
      | some e' =>
        simp only [applyPeerBlocks] at h
        rw [hsp] at h
        simp at h
      | none =>
        rcases hab : applyPeerBlocks env wgx t with ⟨w2x, rx, zsx⟩
        simp only [applyPeerBlocks] at h
        rw [hsp] at h
        simp only [hab, Prod.mk.injEq] at h
        obtain ⟨h1, h2, h3⟩ := h
        subst h1
        subst h2
        subst h3
        have := ih wgx zsx hab
        simp only [List.map_cons, blockPskPresent, this]

/-! ### Claim theorems -/

/-- C5: for every request whose device selector is malformed — both the
numeric-index and the name selector present, or neither present — device
resolution fails (with `EBADR`, classified as InvalidArgument by the
specification's taxonomy), and no device handle is returned. -/
theorem lookup_interface_malformed_selector (w : World) (attrs : DeviceAttrs)
    (net : Nat) (h : attrs.ifindex.isSome = attrs.ifname.isSome) :
    lookupInterface w attrs net = .error .EBADR ∧
      errClass .EBADR = .invalidArgument := by
  constructor
  · simp [lookupInterface, h]
  · rfl

theorem lookup_interface_malformed_selector_witness :
    lookupInterface ⟨[dev0]⟩ attrsEmpty 0 = .error .EBADR ∧
      errClass .EBADR = .invalidArgument :=
  lookup_interface_malformed_selector ⟨[dev0]⟩ attrsEmpty 0 (by decide)

/-- C8: for every request whose effective (port, transit namespace) pair
equals the device's current pair, `set_socket` succeeds with the device
state completely unchanged — no peer's cached endpoint source binding is
cleared, no stored configuration is changed, no socket rebind happens. -/
theorem set_socket_noop_when_pair_unchanged (env : Env) (wg : Device)
    (attrs : DeviceAttrs) (onet : Option Nat)
    (h1 : getAttrNet env attrs.transit_netns_pid attrs.transit_netns_fd = .ok onet)
    (h2 : socketNetCapable env (onet.getD wg.transit_net) = true)
    (h3 : attrs.listen_port.getD wg.incoming_port = wg.incoming_port)
    (h4 : onet = none ∨ onet = some wg.transit_net) :
    setSocket env wg attrs = (wg, none) := by
  unfold setSocket
  rw [h1]
  simp only [h2, not_true_eq_false, if_false, h3]
  rcases h4 with h4 | h4 <;> subst h4 <;> simp

theorem set_socket_noop_when_pair_unchanged_witness :
    setSocket env0 dev0 attrsEmpty = (dev0, none) :=
  set_socket_noop_when_pair_unchanged env0 dev0 attrsEmpty none rfl (by decide)
    rfl (Or.inl rfl)

/-- C3: a dump step invoked with a recorded cursor peer that is no longer
on the device's peer list (which subsumes the empty-peer-list case) emits
no further peers — the peer container is cancelled — and the dump
terminates successfully, with the recorded cursor cleared, as if the
cursored peer had been the last one. -/
theorem dump_step_cursor_removed (env : Env) (wg : Device) (ctx : DumpCtx)
    (b : Nat) (pk : List Nat)
    (hc : ctx.cursor = some pk)
    (hr : wg.peers.any (fun p => p.public_key == pk) = false)
    (hb : 2 ≤ b) :
    dumpStep env wg ctx b =
      ⟨some ⟨wg.device_update_gen, none, none⟩, ⟨none, ctx.rt⟩, .done⟩ := by
  unfold dumpStep
  rw [hc]
  simp only [Option.isNone_some, Bool.false_eq_true, if_false, hr]
  have hb1 : ¬ b < 1 := by omega
  have hb2 : ¬ b - 1 < 0 := by omega
  have hb3 : ¬ b - 1 - 0 < 1 := by omega
  simp [hb1, hb2, hb3]
  omega

theorem dump_step_cursor_removed_witness :
    dumpStep env0 dev0 ⟨some (List.replicate 32 3), rt0⟩ 10 =
      ⟨some ⟨dev0.device_update_gen, none, none⟩, ⟨none, rt0⟩, .done⟩ :=
  dump_step_cursor_removed env0 dev0 ⟨some (List.replicate 32 3), rt0⟩ 10
    (List.replicate 32 3) rfl (by decide) (by decide)

/-- C10: a peer block supplying an endpoint attribute whose
(length, family) combination is not exactly (`sockaddr_in`, `AF_INET`) or
(`sockaddr_in6`, `AF_INET6`) behaves exactly as the same block with no
endpoint attribute at all: the endpoint update is silently skipped, the
block does not fail on its account, and every other field of the block is
still applied. -/
theorem set_peer_bad_endpoint_skipped (env : Env) (wg : Device)
    (attrs : PeerAttrs) (ea : EndpointAttr)
    (he : attrs.endpoint = some ea)
    (hbad : ((ea.len == SIZEOF_SOCKADDR_IN && ea.family == AF_INET) ||
             (ea.len == SIZEOF_SOCKADDR_IN6 && ea.family == AF_INET6)) = false) :
    setPeer env wg attrs = setPeer env wg { attrs with endpoint := none } := by
  have hconf : ∀ (wg' : Device) (pk : List Nat) (psk : Option (List Nat)) (fl : Nat),
      applyPeerConfig wg' pk psk fl attrs =
        applyPeerConfig wg' pk psk fl { attrs with endpoint := none } := by
    intro wg' pk psk fl
    unfold applyPeerConfig
    rw [he]
    simp only [hbad, Bool.false_eq_true, if_false]
  unfold setPeer
  simp only [pskOf]
  cases attrs.public_key with
  | none => rfl
  | some pk =>
    simp only
    split
    · rfl
    · split
      · rfl
      · cases lookupPeer wg pk with
        | none =>
          simp only
          split
          · rfl
          · split
            · rfl
            · split
              · rfl
              · exact hconf ..
        | some p => exact hconf ..

theorem set_peer_bad_endpoint_skipped_witness :
    setPeer env0 dev0
        { peerAttrsEmpty with public_key := some pkA, endpoint := some ⟨20, 2, 0⟩ } =
      setPeer env0 dev0
        { peerAttrsEmpty with public_key := some pkA, endpoint := none } :=
  set_peer_bad_endpoint_skipped env0 dev0
    { peerAttrsEmpty with public_key := some pkA, endpoint := some ⟨20, 2, 0⟩ }
    ⟨20, 2, 0⟩ rfl (by decide)

/-- C9: a peer block whose (well-formed) public key matches no existing
peer: a removal request fails with `ENODEV` (NotFound); a key equal to the
device's own configured public key succeeds with no peer created and no
other effect; otherwise a fresh peer is created (appended to the peer
list) and the rest of the block is applied to it through the shared
configuration path. -/
theorem set_peer_unknown_public_key (env : Env) (wg : Device)
    (attrs : PeerAttrs) (pk : List Nat)
    (hpk : attrs.public_key = some pk)
    (hlen : pk.length = NOISE_PUBLIC_KEY_LEN)
    (hpv : attrs.protocol_version = none ∨ attrs.protocol_version = some 1)
    (hmiss : lookupPeer wg pk = none)
    (halloc : env.peer_alloc_ok = true) :
    (((attrs.flags.getD 0).testBit 0 = true →
        setPeer env wg attrs = (wg, some .ENODEV) ∧ errClass .ENODEV = .notFound)
    ∧ ((attrs.flags.getD 0).testBit 0 = false →
        ((wg.has_identity && pk == wg.static_public) = true →
          setPeer env wg attrs = (wg, none))
      ∧ ((wg.has_identity && pk == wg.static_public) = false →
          setPeer env wg attrs =
            applyPeerConfig (addPeer wg pk (pskOf attrs)) pk (pskOf attrs)
              (attrs.flags.getD 0) attrs
        ∧ (addPeer wg pk (pskOf attrs)).peers.map Peer.public_key
            = wg.peers.map Peer.public_key ++ [pk]))) := by
  have hlen' : (pk.length == NOISE_PUBLIC_KEY_LEN) = true := by simp [hlen]
  have hpv' : (match attrs.protocol_version with
               | some v => v != 1
               | none => false) = false := by
    rcases hpv with h | h <;> simp [h]
  have hred : setPeer env wg attrs =
      (if (attrs.flags.getD 0).testBit 0 then (wg, some Errno.ENODEV)
       else if wg.has_identity && pk == wg.static_public then (wg, none)
       else applyPeerConfig (addPeer wg pk (pskOf attrs)) pk (pskOf attrs)
              (attrs.flags.getD 0) attrs) := by
    unfold setPeer
    rw [hpk]
    simp only [hlen', not_true_eq_false, if_false, hpv', hmiss, halloc,
      Bool.false_eq_true]
  refine ⟨fun hfl => ⟨by rw [hred]; simp [hfl], rfl⟩, fun hfl => ⟨?_, ?_⟩⟩
  · intro hid
    rw [hred]
    simp [hfl, hid]
  · intro hid
    refine ⟨by rw [hred]; simp [hfl, hid], by simp [addPeer]⟩

def pkC : List Nat := List.replicate 32 3

def attrs9 : PeerAttrs := { peerAttrsEmpty with public_key := some pkC }

theorem set_peer_unknown_public_key_witness :
    setPeer env0 dev0 attrs9 =
      applyPeerConfig (addPeer dev0 pkC (pskOf attrs9)) pkC (pskOf attrs9)
        (attrs9.flags.getD 0) attrs9 ∧
    (addPeer dev0 pkC (pskOf attrs9)).peers.map Peer.public_key
      = dev0.peers.map Peer.public_key ++ [pkC] :=
  ((set_peer_unknown_public_key env0 dev0 attrs9 pkC rfl (by decide)
      (Or.inl rfl) (by decide) rfl).2 (by decide)).2 (by decide)

/-- A two-message dump of `dev0`: the first message's budget (15) fits the
header, the device fields, the peer container and all of `peerA`, but not
`peerB`, so the dump continues; the second message gets ample budget. -/
def c2step1 : StepRes := dumpStep env0 dev0 ⟨none, rt0⟩ 15

def c2step2 : StepRes := dumpStep env0 dev0 c2step1.ctx 50

/-- C2 counterexample: the dump is not finished after the first message
(`.more`), and the second — hence not the first — message serializes
`peerB` *with* the extended field group (preshared key, keepalive,
protocol version, endpoint), refuting "on every later message a serialized
peer carries only its public key and allowed-prefix list". -/
theorem dump_page0_fields_on_later_message_cex :
    c2step1.ret = .more ∧
    msgPeers c2step2.msg = some [⟨pkB, some (page0Of peerB), []⟩] :=
  ⟨rfl, rfl⟩

/-- C2 (amended): a peer record kept in a dump message carries the
extended field group if and only if the prefix sub-cursor stamp was zero
when the peer was serialized — that is, exactly when the peer is not
resuming an allowed-prefix walk interrupted on an earlier message, which
is every first appearance of the peer regardless of the message number. -/
theorem get_peer_page0_iff_fresh_walk (p : Peer) (prefs : List PrefixRec)
    (rt : RtCursor) (b : Nat) (rec : PeerRec)
    (h : (getPeer p prefs rt b).kept = some rec) :
    rec.page0.isSome = (rt.seq == 0) := by
  cases hs : (rt.seq == 0) with
  | true =>
    simp only [getPeer, hs, if_true, reduceIte] at h
    split at h
    · exact absurd h (by simp)
    · split at h
      · exact absurd h (by simp)
      · split at h <;>
        · injection h with h
          subst h
          simp [hs]
  | false =>
    simp only [getPeer, hs, Bool.false_eq_true, if_false, reduceIte] at h
    split at h
    · exact absurd h (by simp)
    · split at h
      · exact absurd h (by simp)
      · split at h <;>
        · injection h with h
          subst h
          simp [hs]

theorem get_peer_page0_iff_fresh_walk_witness :
    (⟨pkA, some (page0Of peerA), []⟩ : PeerRec).page0.isSome = (rt0.seq == 0) :=
  get_peer_page0_iff_fresh_walk peerA [] rt0 20 ⟨pkA, some (page0Of peerA), []⟩ rfl

/-- A two-message dump of `dev0` whose first budget (6) fits the header,
the device fields and the peer container but not even one peer, so the
next-peer cursor stays empty while the dump continues. -/
def c7step1 : StepRes := dumpStep env0 dev0 ⟨none, rt0⟩ 6

def c7step2 : StepRes := dumpStep env0 dev0 c7step1.ctx 50

/-- C7 counterexample: the first message carries the device-level fields
and the dump continues (`.more`) with no cursor recorded; the second — a
later — message carries the device-level fields again, refuting "emitted
exactly once, on the very first message, and on no later message". -/
theorem dump_dev_fields_repeated_cex :
    c7step1.ret = .more ∧
    msgDev c7step1.msg = some (devFieldsOf env0 dev0) ∧
    msgDev c7step2.msg = some (devFieldsOf env0 dev0) :=
  ⟨rfl, rfl, rfl⟩

theorem dumpPeers_cursor_some (wg : Device) (cur0 : Option (List Nat))
    (rt : RtCursor) (b : Nat) (ps : List Peer)
    (h : cur0.isSome = true) :
    (dumpPeers wg cur0 rt b ps).2.2.2.1.isSome = true := by
  induction ps generalizing cur0 rt b with
  | nil => simpa [dumpPeers] using h
  | cons p rest ih =>
    simp only [dumpPeers]
    rcases hk : (getPeer p (prefixesOf wg p.public_key) rt b).kept with - | rec
    · simp [hk, h]
    · rcases ho : (getPeer p (prefixesOf wg p.public_key) rt b).ok
      · simp [hk, ho, h]
      · simp only [hk, ho]
        exact ih (some p.public_key) _ _ rfl

/-- C7 (amended): a dump message carries the device-level fields if and
only if no last-peer cursor was recorded when it was produced — so they
appear on the very first message, but also on any later message produced
while no peer had yet been fully serialized; and once a cursor is recorded
it stays recorded as long as the dump continues, so after any message that
completed a peer no further message carries device-level fields. -/
theorem dump_dev_fields_iff_no_cursor (env : Env) (wg : Device)
    (ctx : DumpCtx) (b : Nat) :
    (∀ m, (dumpStep env wg ctx b).msg = some m →
        m.dev.isSome = ctx.cursor.isNone)
    ∧ (ctx.cursor.isSome = true → (dumpStep env wg ctx b).ret = .more →
        (dumpStep env wg ctx b).ctx.cursor.isSome = true) := by
  constructor
  · intro m hm
    rcases hcur : ctx.cursor with - | pk <;>
      simp only [dumpStep, hcur, Option.isNone_some, Option.isNone_none,
        Bool.false_eq_true, if_false, if_true] at hm ⊢ <;>
    · split at hm
      · exact absurd hm (by simp)
      · split at hm
        · exact absurd hm (by simp)
        · split at hm
          · exact absurd hm (by simp)
          · split at hm
            · injection hm with hm
              subst hm
              simp
            · split at hm <;>
              · injection hm with hm
                subst hm
                simp
  · intro hc
    rcases hcur : ctx.cursor with - | pk
    · rw [hcur] at hc
      exact absurd hc (by simp)
    · simp only [dumpStep, hcur, Option.isNone_some, Bool.false_eq_true,
        if_false]
      split
      · intro hr; exact absurd hr (by simp)
      · split
        · intro hr; exact absurd hr (by simp)
        · split
          · intro hr; exact absurd hr (by simp)
          · split
            · intro hr; exact absurd hr (by simp)
            · split
              · intro hr; exact absurd hr (by simp)
              · intro _
                exact dumpPeers_cursor_some wg (some pk) ctx.rt _ _ rfl

theorem dump_dev_fields_iff_no_cursor_witness :
    (⟨3, some (devFieldsOf env0 dev0), some []⟩ : Msg).dev.isSome
      = (⟨none, rt0⟩ : DumpCtx).cursor.isNone :=
  (dump_dev_fields_iff_no_cursor env0 dev0 ⟨none, rt0⟩ 6).1
    ⟨3, some (devFieldsOf env0 dev0), some []⟩ rfl

theorem applyPrivateKey_installs (env : Env) (wg : Device)
    (attrs : DeviceAttrs) (priv pub : List Nat)
    (h5 : attrs.private_key = some priv)
    (h6 : priv.length = NOISE_PUBLIC_KEY_LEN)
    (h7 : env.genpub priv = some pub) :
    (applyPrivateKey env wg attrs).has_identity = true ∧
    (applyPrivateKey env wg attrs).static_public = pub ∧
    (applyPrivateKey env wg attrs).static_private = priv ∧
    ∀ q ∈ (applyPrivateKey env wg attrs).peers, q.public_key ≠ pub := by
  have hlen : (priv.length == NOISE_PUBLIC_KEY_LEN) = true := by simp [h6]
  rcases hlp : lookupPeer wg pub with - | q0
  all_goals
    have hred : applyPrivateKey env wg attrs =
        (let wgA := match lookupPeer wg pub with
                    | some _ => removePeerByKey wg pub
                    | none => wg
         let wgB := { wgA with
                      has_identity := true, static_private := priv,
                      static_public := pub }
         ((wgB.peers.filter (fun p => ¬ env.precompute_ok priv p.public_key)).map
           (fun p => p.public_key)).foldl removePeerByKey wgB) := by
      simp only [applyPrivateKey, h5, hlen, if_true, h7]
  all_goals rw [hred, hlp]
  all_goals simp only []
  · refine ⟨(foldlRemove_identity _ _).1, (foldlRemove_identity _ _).2.1,
      (foldlRemove_identity _ _).2.2, ?_⟩
    intro q hq heq
    have hmem := foldlRemove_peers_sub _ _ _ hq
    simp only [lookupPeer] at hlp
    have := List.find?_eq_none.mp hlp q hmem
    simp [heq] at this
  · refine ⟨(foldlRemove_identity _ _).1, (foldlRemove_identity _ _).2.1,
      (foldlRemove_identity _ _).2.2, ?_⟩
    intro q hq heq
    have hmem := foldlRemove_peers_sub _ _ _ hq
    simp only [removePeerByKey, List.mem_filter] at hmem
    have := hmem.2
    simp [heq] at this

/-- C6: a mutation that sets the device's private key, when the derived
public key collides with an existing peer's public key, removes that peer
within the same atomic mutation (the single `deviceMutation` transition
executed under the device update lock) and installs the new identity: the
resulting device has the new key pair configured and no peer whose public
key equals the derived public key. -/
theorem set_device_private_key_removes_collision (env : Env)
    (wg wg1 : Device) (attrs : DeviceAttrs) (priv pub : List Nat) (q0 : Peer)
    (h5 : attrs.private_key = some priv)
    (h6 : priv.length = NOISE_PUBLIC_KEY_LEN)
    (h7 : env.genpub priv = some pub)
    (_hex : q0 ∈ wg.peers ∧ q0.public_key = pub)
    (hpre : preBlocksState env wg attrs = (wg1, none))
    (hnop : attrs.peers = none) :
    deviceMutation env wg attrs = (wg1, none, []) ∧
    wg1.has_identity = true ∧ wg1.static_public = pub ∧
    wg1.static_private = priv ∧
    ∀ q ∈ wg1.peers, q.public_key ≠ pub := by
  refine ⟨by simp only [deviceMutation, hpre, hnop], ?_⟩
  unfold preBlocksState at hpre
  rcases hs : setSocket env (fwmarkStep (bumpGen wg) attrs) attrs with ⟨wgS, r⟩
  rw [hs] at hpre
  cases r with
  | some e => exact absurd (congrArg (fun x => x.2) hpre) (by simp)
  | none =>
    have h1 := congrArg (fun x => x.1) hpre
    simp only at h1
    rw [← h1]
    exact applyPrivateKey_installs env _ attrs priv pub h5 h6 h7

def attrsC6 : DeviceAttrs :=
  { attrsEmpty with private_key := some (List.replicate 32 0) }

theorem set_device_private_key_removes_collision_witness :
    deviceMutation env0 dev0 attrsC6 =
      ((preBlocksState env0 dev0 attrsC6).1, none, []) ∧
    (preBlocksState env0 dev0 attrsC6).1.has_identity = true ∧
    (preBlocksState env0 dev0 attrsC6).1.static_public = pkA ∧
    (preBlocksState env0 dev0 attrsC6).1.static_private = List.replicate 32 0 ∧
    ∀ q ∈ (preBlocksState env0 dev0 attrsC6).1.peers, q.public_key ≠ pkA :=
  set_device_private_key_removes_collision env0 dev0
    (preBlocksState env0 dev0 attrsC6).1 attrsC6 (List.replicate 32 0) pkA
    peerA rfl (by decide) rfl ⟨by decide, rfl⟩ rfl rfl

/-- C1: a `set_device` request whose device-level phase succeeds and whose
peer-block list is `pre ++ blk :: post`, where every block of `pre`
succeeds and `blk` fails with error `e`: the whole request returns `e`,
the final device state is exactly the state reached after the device-level
phase, all of `pre`, and the failing block's own partial effects — nothing
is rolled back — and no block of `post` is applied (their preshared-key
buffers are left untouched). -/
theorem set_device_partial_application (env : Env) (w : World) (skb_net : Nat)
    (attrs : DeviceAttrs) (onet : Option Nat) (i : Nat) (wg wg1 wg2 wg3 : Device)
    (pre post : List (Except Errno PeerAttrs)) (blk : PeerAttrs)
    (zs : List Bool) (e : Errno)
    (h1 : getAttrNet env attrs.dev_netns_pid attrs.dev_netns_fd = .ok onet)
    (h2 : env.netlink_capable (onet.getD skb_net) = true)
    (h3 : lookupInterface w attrs (onet.getD skb_net) = .ok i)
    (h4 : w.devices[i]? = some wg)
    (hpre : preBlocksState env wg attrs = (wg1, none))
    (hblocks : attrs.peers = some (pre ++ .ok blk :: post))
    (hok : applyPeerBlocks env wg1 pre = (wg2, none, zs))
    (hfail : setPeer env wg2 blk = (wg3, some e)) :
    setDevice env w skb_net attrs =
      ⟨⟨w.devices.set i wg3⟩, some e, attrs.private_key.isSome,
       zs ++ blk.preshared_key.isSome :: post.map (fun _ => false)⟩ := by
  have hab := applyPeerBlocks_append env wg1 pre post blk wg2 wg3 zs e hok hfail
  unfold setDevice
  rw [h1]
  simp only [h2, not_true_eq_false, if_false]
  simp only [h3, h4, deviceMutation, hpre, hblocks, hab]

def blkBad : PeerAttrs :=
  { peerAttrsEmpty with preshared_key := some (List.replicate 32 7) }

def blkGood : PeerAttrs :=
  { peerAttrsEmpty with
    public_key := some pkC,
    preshared_key := some (List.replicate 32 6) }

def attrsC1 : DeviceAttrs :=
  { attrsEmpty with
    ifindex := some 7,
    peers := some [.ok blkBad, .ok blkGood] }

theorem set_device_partial_application_witness :
    setDevice env0 ⟨[dev0]⟩ 0 attrsC1 =
      ⟨⟨[dev0].set 0 (preBlocksState env0 dev0 attrsC1).1⟩, some .EINVAL,
       false, [true, false]⟩ :=
  set_device_partial_application env0 ⟨[dev0]⟩ 0 attrsC1 none 0 dev0
    (preBlocksState env0 dev0 attrsC1).1 (preBlocksState env0 dev0 attrsC1).1
    (preBlocksState env0 dev0 attrsC1).1 [] [Except.ok blkGood] blkBad []
    .EINVAL rfl rfl rfl rfl rfl rfl rfl rfl

/-- C4 counterexample: a batch of two peer blocks, both carrying
preshared-key bytes, whose first block fails validation: the request
returns the error, the first block's preshared-key buffer is zeroed
(`set_peer` ran on it), but the second block's preshared-key buffer is
*not* zeroed when the call returns — refuting "every buffer that held
preshared-key bytes is overwritten with zeros on every exit path". -/
theorem set_device_psk_not_zeroed_cex :
    (setDevice env0 ⟨[dev0]⟩ 0 attrsC1).err = some .EINVAL ∧
    blockPskPresent (Except.ok blkGood) = true ∧
    (setDevice env0 ⟨[dev0]⟩ 0 attrsC1).psk_zeroed = [true, false] :=
  ⟨rfl, rfl, rfl⟩

/-- C4 (amended): the private-key attribute buffer is zeroed on every exit
path of `set_device`; a peer block's preshared-key buffer is zeroed
exactly when `set_peer` actually ran on that block — every block before
the first failure and the failing block itself — while the buffers of
blocks after the failure point are left untouched. -/
theorem set_device_key_zeroing (env : Env) (w : World) (skb_net : Nat)
    (attrs : DeviceAttrs) (onet : Option Nat) (i : Nat) (wg wg1 wg2 wg3 : Device)
    (pre post : List (Except Errno PeerAttrs)) (blk : PeerAttrs)
    (zs : List Bool) (e : Errno)
    (h1 : getAttrNet env attrs.dev_netns_pid attrs.dev_netns_fd = .ok onet)
    (h2 : env.netlink_capable (onet.getD skb_net) = true)
    (h3 : lookupInterface w attrs (onet.getD skb_net) = .ok i)
    (h4 : w.devices[i]? = some wg)
    (hpre : preBlocksState env wg attrs = (wg1, none))
    (hblocks : attrs.peers = some (pre ++ .ok blk :: post))
    (hok : applyPeerBlocks env wg1 pre = (wg2, none, zs))
    (hfail : setPeer env wg2 blk = (wg3, some e)) :
    (∀ (env2 : Env) (w2 : World) (n2 : Nat) (a2 : DeviceAttrs),
        (setDevice env2 w2 n2 a2).priv_zeroed = a2.private_key.isSome)
    ∧ (setDevice env w skb_net attrs).psk_zeroed =
        pre.map blockPskPresent ++
          blk.preshared_key.isSome :: post.map (fun _ => false) := by
  constructor
  · intro env2 w2 n2 a2
    cases hga : getAttrNet env2 a2.dev_netns_pid a2.dev_netns_fd with
    | error e2 => simp [setDevice, hga]
    | ok onet2 =>
      by_cases hcap : env2.netlink_capable (onet2.getD n2)
      · cases hli : lookupInterface w2 a2 (onet2.getD n2) with
        | error e2 => simp [setDevice, hga, hcap, hli]
        | ok i2 =>
          cases hgi : w2.devices[i2]? with
          | none => simp [setDevice, hga, hcap, hli, hgi]
          | some wgx => simp [setDevice, hga, hcap, hli, hgi]
      · simp [setDevice, hga, hcap]
  · have hab := applyPeerBlocks_append env wg1 pre post blk wg2 wg3 zs e hok hfail
    have hzs := applyPeerBlocks_flags_ok env wg1 pre wg2 zs hok
    unfold setDevice
    rw [h1]
    simp only [h2, not_true_eq_false, if_false]
    simp only [h3, h4, deviceMutation, hpre, hblocks, hab, hzs]

theorem set_device_key_zeroing_witness :
    (∀ (env2 : Env) (w2 : World) (n2 : Nat) (a2 : DeviceAttrs),
        (setDevice env2 w2 n2 a2).priv_zeroed = a2.private_key.isSome)
    ∧ (setDevice env0 ⟨[dev0]⟩ 0 attrsC1).psk_zeroed = [true, false] :=
  set_device_key_zeroing env0 ⟨[dev0]⟩ 0 attrsC1 none 0 dev0
    (preBlocksState env0 dev0 attrsC1).1 (preBlocksState env0 dev0 attrsC1).1
    (preBlocksState env0 dev0 attrsC1).1 [] [Except.ok blkGood] blkBad []
    .EINVAL rfl rfl rfl rfl rfl rfl rfl rfl

end WgNetlink
